import Mathlib

/-!
Verification of the Tienda Aurelion inventory application
(`streamlit_app.py`): a shallow embedding of its catalog store
(`cargar_datos` / `guardar_datos`), query engine (`pagina_productos`
filters and statistics), aggregation engine (`pagina_estadisticas`),
and mutation service (`pagina_gestionar`), together with theorems about
the properties the specification states for them.

The catalog is a pandas DataFrame in the source; here it is a `List
Product` in file-row order.  CSV data content is a `List RawRow` of
string fields in column order `id, nombre, categoria, precio, stock,
descripcion, proveedor`.
-/

/-- Product record: one catalog row, fields in the CSV column order. -/
structure Product where
  id : Int
  nombre : String
  categoria : String
  precio : Int
  stock : Int
  descripcion : String
  proveedor : String
deriving DecidableEq, Repr

/-- Raw CSV data row: the seven fields as strings, before the numeric
coercion that `cargar_datos` performs on `id`, `precio`, `stock`. -/
structure RawRow where
  id : String
  nombre : String
  categoria : String
  precio : String
  stock : String
  descripcion : String
  proveedor : String
deriving DecidableEq, Repr

/-- Low-stock threshold, `UMBRAL_STOCK_BAJO = 20` in the source. -/
def UMBRAL_STOCK_BAJO : Int := 20

/-- Decimal digits to a natural number: succeeds exactly on a non-empty
all-digit character list (`astype(int)` on a textual column raises on
anything else). -/
def parseNat (cs : List Char) : Option Nat :=
  if cs = [] then none
  else if cs.all (·.isDigit) then
    some (cs.foldl (fun n c => n * 10 + (c.toNat - 48)) 0)
  else none

/-- Integer coercion of one CSV cell, an optional leading minus sign
followed by decimal digits. -/
def parseInt (s : String) : Option Int :=
  match s.data with
  | '-' :: rest => (parseNat rest).map (fun n => -(n : Int))
  | cs => (parseNat cs).map (fun n => (n : Int))

/-- One decimal digit as a character. -/
def digitChar (n : Nat) : Char := Char.ofNat (48 + n)

/-- Fuel-driven accumulation of the decimal digits of `n`, most
significant first. -/
def natCharsAux : Nat → Nat → List Char → List Char
  | 0, _, acc => acc
  | fuel+1, n, acc =>
    if n < 10 then digitChar n :: acc
    else natCharsAux fuel (n / 10) (digitChar (n % 10) :: acc)

/-- Canonical decimal digits of a natural number. -/
def natChars (n : Nat) : List Char := natCharsAux (n+1) n []

/-- Canonical decimal rendering of an integer, as `to_csv` writes the
`id`, `precio` and `stock` cells. -/
def intToString : Int → String
  | .ofNat n => ⟨natChars n⟩
  | .negSucc m => ⟨'-' :: natChars (m+1)⟩

/-- Numeric coercion of one row: `astype(int)` applied to the `id`,
`precio` and `stock` fields; `none` when some value cannot be coerced
(pandas raises, caught by the `except` in `cargar_datos`). -/
def coerceRow (r : RawRow) : Option Product :=
  match parseInt r.id, parseInt r.precio, parseInt r.stock with
  | some i, some pr, some s =>
      some ⟨i, r.nombre, r.categoria, pr, s, r.descripcion, r.proveedor⟩
  | _, _, _ => none

/-- Column-wise coercion of the whole file: if any value of `id`,
`precio` or `stock` fails to coerce, `astype(int)` raises and the whole
result is `none` (the exception aborts the entire conversion). -/
def coerceAll : List RawRow → Option (List Product)
  | [] => some []
  | r :: rest =>
    match coerceRow r, coerceAll rest with
    | some p, some ps => some (p :: ps)
    | _, _ => none

/-- Embedding of `cargar_datos`: `none` input is a missing file
(`FileNotFoundError`), in which case an empty DataFrame is returned;
otherwise the rows are read and coerced, and any coercion failure is
caught by the generic `except`, which also returns an empty DataFrame. -/
def cargar_datos : Option (List RawRow) → List Product
  | none => []
  | some rows =>
    match coerceAll rows with
    | some ps => ps
    | none => []

/-- Serialization of one product back to a CSV data row, numeric fields
rendered as decimal integers (pandas `to_csv`). -/
def serializeRow (p : Product) : RawRow :=
  ⟨intToString p.id, p.nombre, p.categoria, intToString p.precio,
   intToString p.stock, p.descripcion, p.proveedor⟩

/-- Data content that `guardar_datos` writes: the whole catalog, same
row order, same column order. -/
def guardar_serialize (df : List Product) : List RawRow :=
  df.map serializeRow

/-- Embedding of `guardar_datos` together with an explicit write-failure
point.  The source calls `df.to_csv(ARCHIVO_CSV, ...)` directly on the
backing file: the file is opened for writing (truncated) and the rows
are streamed out, so a failure after `k` rows leaves the first `k` rows
of the NEW content on disk.  `failAt = none` is a successful write.
The exception is caught and `False` is returned on failure, `True` on
success.  Result: (file content after the call, returned boolean). -/
def guardar_datos (old : List RawRow) (df : List Product)
    (failAt : Option Nat) : List RawRow × Bool :=
  match failAt with
  | none => (guardar_serialize df, true)
  | some k => ((guardar_serialize df).take k, false)

/-- A string is a canonical decimal integer: it parses to an integer
whose standard decimal rendering is the string itself (the well-formed
on-disk number format: decimal integers, no thousands separators). -/
def canonicalInt (s : String) : Bool :=
  match parseInt s with
  | some i => intToString i == s
  | none => false

/-- A well-formed backing file: every numeric field of every row is a
canonical decimal integer. -/
def wellFormedFile (rows : List RawRow) : Bool :=
  rows.all fun r => canonicalInt r.id && canonicalInt r.precio && canonicalInt r.stock

/-- Stock-state filter of `pagina_productos`: the radio options
`Todos`, `Stock Bajo (≤20)`, `Stock Saludable (>20)`. -/
inductive FiltroStock
  | todos
  | bajo
  | saludable
deriving DecidableEq, Repr

/-- Filter specification of `pagina_productos`: selected category
(the literal `Todas` = no filter), selected supplier (`Todos` = no
filter), inclusive price range, stock-state choice, and the name-search
text (empty = no filter). -/
structure FiltroSpec where
  categoria : String
  proveedor : String
  precioMin : Int
  precioMax : Int
  stockFilter : FiltroStock
  busqueda : String
deriving DecidableEq, Repr

/-- Lower-casing of a string, character by character. -/
def toLowerStr (s : String) : String := ⟨s.data.map Char.toLower⟩

/-- Contiguous-substring test on character lists. -/
def esInfijo (needle : List Char) : List Char → Bool
  | [] => needle.isEmpty
  | c :: t => needle.isPrefixOf (c :: t) || esInfijo needle t

/-- Case-insensitive substring test, the embedding of
`str.contains(busqueda, case=False)`. -/
def contieneCI (nombre busqueda : String) : Bool :=
  esInfijo (toLowerStr busqueda).data (toLowerStr nombre).data

/-- Embedding of the filter pipeline of `pagina_productos` (category,
supplier, price range, stock state, name search, in source order,
composed as logical AND and preserving row order). -/
def aplicar_filtros (df : List Product) (f : FiltroSpec) : List Product :=
  let d1 := if f.categoria == "Todas" then df
    else df.filter fun p => p.categoria == f.categoria
  let d2 := if f.proveedor == "Todos" then d1
    else d1.filter fun p => p.proveedor == f.proveedor
  let d3 := d2.filter fun p =>
    decide (f.precioMin ≤ p.precio) && decide (p.precio ≤ f.precioMax)
  let d4 := match f.stockFilter with
    | .todos => d3
    | .bajo => d3.filter fun p => decide (p.stock ≤ UMBRAL_STOCK_BAJO)
    | .saludable => d3.filter fun p => decide (UMBRAL_STOCK_BAJO < p.stock)
  if f.busqueda == "" then d4
  else d4.filter fun p => contieneCI p.nombre f.busqueda

/-- Sum of the `stock` column. -/
def sumStock (df : List Product) : Int := (df.map (·.stock)).sum

/-- Sum of `precio * stock` over the rows. -/
def sumValor (df : List Product) : Int :=
  (df.map (fun p => p.precio * p.stock)).sum

/-- Sum of the `precio` column. -/
def sumPrecio (df : List Product) : Int := (df.map (·.precio)).sum

/-- The three metric cards of the filtered-result view: total stock,
total value, mean price. -/
structure EstadisticasFiltrado where
  stockTotal : Int
  valorTotal : Int
  precioPromedio : Rat
deriving DecidableEq, Repr

/-- Statistics block of `pagina_productos`: the three metrics are
computed and shown only when the filtered result is non-empty
(`len(df_filtrado) > 0`); on an empty result the page shows an
informational message instead and none of them is evaluated. -/
def estadisticas_filtradas (d : List Product) : Option EstadisticasFiltrado :=
  if 0 < d.length then
    some ⟨sumStock d, sumValor d, (sumPrecio d : Rat) / (d.length : Rat)⟩
  else none

/-- Distinct category values of the catalog (the group keys of
`df.groupby('categoria')`; pandas sorts them, but the spec leaves group
order arbitrary and the theorems below only use membership). -/
def categoriasUnicas (df : List Product) : List String :=
  (df.map (·.categoria)).dedup

/-- One row of the per-category analysis table of `pagina_estadisticas`:
product count, stock total, price mean, total value. -/
structure FilaCategoria where
  categoria : String
  cantidad : Nat
  stockTotal : Int
  precioPromedio : Rat
  valorTotal : Int
deriving DecidableEq, Repr

/-- Embedding of `analisis_categoria` (`df.groupby('categoria').agg`
plus the derived `Valor Total` column): one row per distinct category. -/
def analisis_categoria (df : List Product) : List FilaCategoria :=
  (categoriasUnicas df).map fun c =>
    let g := df.filter fun p => p.categoria == c
    ⟨c, g.length, sumStock g, (sumPrecio g : Rat) / (g.length : Rat), sumValor g⟩

/-- Embedding of `df.loc[df['precio'].idxmax()]`: pandas `idxmax`
returns the index of the FIRST occurrence of the maximum, so this is
the first row attaining the maximal price (head wins ties against the
best of the rest only when strictly beaten). -/
def producto_mas_caro : List Product → Option Product
  | [] => none
  | p :: rest =>
    match producto_mas_caro rest with
    | none => some p
    | some q => if p.precio < q.precio then some q else some p

/-- Embedding of `df.loc[df['precio'].idxmin()]`: first row attaining
the minimal price. -/
def producto_mas_barato : List Product → Option Product
  | [] => none
  | p :: rest =>
    match producto_mas_barato rest with
    | none => some p
    | some q => if q.precio < p.precio then some q else some p

/-- Input fields of the add-product form. -/
structure FormProducto where
  nombre : String
  categoria : String
  precio : Int
  stock : Int
  descripcion : String
  proveedor : String
deriving DecidableEq, Repr

/-- Embedding of `df['id'].max()`: maximum of the id column (the `[]`
case is unreachable in the application, `main` aborts on an empty
catalog before any page runs). -/
def maxId : List Product → Int
  | [] => 0
  | [p] => p.id
  | p :: q :: rest => max p.id (maxId (q :: rest))

/-- Embedding of the add-product handler of `pagina_gestionar`: empty
name or description is rejected with no mutation; otherwise the new id
is `df['id'].max() + 1` and the new row is appended
(`pd.concat([df, nuevo_producto])`).  Returns the updated catalog and
the assigned id (`none` on validation failure). -/
def agregar_producto (df : List Product) (f : FormProducto) :
    List Product × Option Int :=
  if f.nombre == "" || f.descripcion == "" then (df, none)
  else
    let nuevoId := maxId df + 1
    (df ++ [⟨nuevoId, f.nombre, f.categoria, f.precio, f.stock,
             f.descripcion, f.proveedor⟩], some nuevoId)

/-- N consecutive add-product calls, threading the catalog. -/
def agregar_varios (df : List Product) : List FormProducto → List Product
  | [] => df
  | f :: fs => agregar_varios (agregar_producto df f).1 fs

/-- The three stock-update operations of `pagina_gestionar`. -/
inductive Operacion
  | recibir
  | vender
  | establecer
deriving DecidableEq, Repr

/-- Outcome of a stock update: resulting in-memory catalog, whether the
insufficient-stock error was reported, and whether `guardar_datos` was
invoked (i.e. whether anything was written to disk). -/
structure ResultadoStock where
  df : List Product
  errorInsuficiente : Bool
  guardado : Bool
deriving DecidableEq, Repr

/-- Embedding of `df[df['id'] == producto_id].iloc[0]`: the first row
with the given id. -/
def findProducto (df : List Product) (pid : Int) : Option Product :=
  (df.filter fun p => p.id == pid).head?

/-- Embedding of `df.loc[df['id'] == producto_id, 'stock'] = nuevo`:
every row whose id matches gets the new stock value. -/
def asignar_stock (df : List Product) (pid : Int) (nuevo : Int) :
    List Product :=
  df.map fun p => if p.id == pid then { p with stock := nuevo } else p

/-- Embedding of the stock-update handler of `pagina_gestionar`:
RECEIVE adds `cantidad`, SELL subtracts it unless `cantidad > stock`
(in which case the error is shown and nothing is mutated or saved), SET
writes `nuevoStockInput` directly; on success the catalog is saved. -/
def actualizar_stock (df : List Product) (pid : Int) (op : Operacion)
    (cantidad nuevoStockInput : Int) : ResultadoStock :=
  match findProducto df pid with
  | none => ⟨df, false, false⟩
  | some producto =>
    match op with
    | .recibir => ⟨asignar_stock df pid (producto.stock + cantidad), false, true⟩
    | .vender =>
      if producto.stock < cantidad then ⟨df, true, false⟩
      else ⟨asignar_stock df pid (producto.stock - cantidad), false, true⟩
    | .establecer => ⟨asignar_stock df pid nuevoStockInput, false, true⟩

/-- Embedding of `dict(zip(df['nombre'], df['id']))` followed by a
lookup: Python dict construction inserts the pairs in row order, later
pairs overwriting earlier ones with the same key, so the lookup yields
the id of the LAST row bearing the name. -/
def productos_dict (df : List Product) (nombre : String) : Option Int :=
  df.foldl (fun acc p => if p.nombre == nombre then some p.id else acc) none

/-- The four pages of the navigation menu. -/
inductive Pagina
  | inicio
  | explorar
  | estadisticas
  | gestionar
deriving DecidableEq, Repr

/-- Result of `main`: either it aborts on the empty-catalog check
(`if df.empty: ... return`) or it dispatches the loaded catalog to the
selected page. -/
inductive MainResult
  | aborted
  | dispatched (df : List Product) (pagina : Pagina)
deriving DecidableEq, Repr

/-- Embedding of `main`: load, abort if the loaded DataFrame is empty,
otherwise hand the catalog to the selected page. -/
def mainApp (file : Option (List RawRow)) (pagina : Pagina) : MainResult :=
  let df := cargar_datos file
  if df.isEmpty then .aborted else .dispatched df pagina

/-- Sample product, the first row of the scenario catalog of the
specification. -/
def pEspada : Product := ⟨1, "Espada", "Armas", 100, 5, "Espada de acero", "Herrero"⟩

/-- Sample product, the second row of the scenario catalog. -/
def pPocion : Product := ⟨2, "Pocion", "Consumibles", 50, 30, "Pocion de vida", "Alquimista"⟩

/-- Scenario catalog of the specification: ids 1 and 2, prices 100 and
50, stocks 5 and 30. -/
def dfEjemplo : List Product := [pEspada, pPocion]

/-- Serialized form of the scenario catalog rows, used as concrete file
content. -/
def filaEspada : RawRow := ⟨"1", "Espada", "Armas", "100", "5", "Espada de acero", "Herrero"⟩

/-- Serialized form of the second scenario row. -/
def filaPocion : RawRow := ⟨"2", "Pocion", "Consumibles", "50", "30", "Pocion de vida", "Alquimista"⟩

/-- Row whose price cell cannot be coerced to an integer. -/
def filaMala : RawRow := ⟨"3", "Runa", "Magia", "abc", "4", "Runa antigua", "Mago"⟩

/-- C1, counterexample: the claim says that after a failed save the
on-disk file is byte-identical in data content to the file before the
save.  The source writes with df.to_csv directly on the backing file
(no temporary file, no replace), so a write that fails after the file
was truncated and 0 rows were written leaves an empty file, not the
prior one-row content; the call does report failure (returns False). -/
theorem c1_counterexample :
    (guardar_datos [filaEspada] [pPocion] (some 0)).1 ≠ [filaEspada] ∧
    (guardar_datos [filaEspada] [pPocion] (some 0)).2 = false := by decide

/-- C1, amended: guardar_datos catches the write error and returns
False (the failure is reported and terminal), but because it writes
directly to the CSV file the content after a failure at point k is the
first k rows of the NEW serialization — a prefix of the new content,
not the prior content: with a non-empty prior file, a failure at point
0 leaves a file different from the prior one.  A successful save writes
the full new serialization and returns True. -/
theorem c1_guardar_sin_atomicidad (old : List RawRow) (df : List Product)
    (k : Nat) (hold : old ≠ []) :
    (guardar_datos old df (some k)).2 = false ∧
    (guardar_datos old df (some k)).1 = (guardar_serialize df).take k ∧
    (guardar_datos old df (some 0)).1 ≠ old ∧
    guardar_datos old df none = (guardar_serialize df, true) := by
  refine ⟨rfl, rfl, ?_, rfl⟩
  show (guardar_serialize df).take 0 ≠ old
  simpa using hold

/-- C1, witness for the amended theorem at a concrete catalog. -/
theorem c1_witness :
    (guardar_datos [filaEspada] [pPocion] (some 1)).2 = false ∧
    (guardar_datos [filaEspada] [pPocion] (some 1)).1
      = (guardar_serialize [pPocion]).take 1 ∧
    (guardar_datos [filaEspada] [pPocion] (some 0)).1 ≠ [filaEspada] ∧
    guardar_datos [filaEspada] [pPocion] none
      = (guardar_serialize [pPocion], true) :=
  c1_guardar_sin_atomicidad [filaEspada] [pPocion] 1 (by decide)

/-- C3, counterexample: the claim says a coercion failure is confined to
the offending value/row and the load still yields a usable result.  In
the source the astype(int) exception is caught by the generic except
clause of cargar_datos, which returns an EMPTY DataFrame: loading a
two-row file whose second row has a non-coercible price yields no rows
at all, although the first row alone loads fine. -/
theorem c3_counterexample :
    cargar_datos (some [filaEspada, filaMala]) = [] ∧
    cargar_datos (some [filaEspada]) ≠ [] := by decide

/-- C3, amended: a coercion failure is reported and does not crash the
process (cargar_datos returns normally), but it is fatal to the whole
load, not confined to the offending row: if any row of the file fails
to coerce, cargar_datos yields the empty catalog. -/
theorem c3_coercion_fatal_al_load (rows : List RawRow) (r : RawRow)
    (hr : r ∈ rows) (hfail : coerceRow r = none) :
    cargar_datos (some rows) = [] := by
  have hall : coerceAll rows = none := by
    induction rows with
    | nil => cases hr
    | cons a t ih =>
      rcases List.mem_cons.mp hr with h | h
      · subst h
        simp [coerceAll, hfail]
      · cases ha : coerceRow a <;> simp [coerceAll, ha, ih h]
  simp [cargar_datos, hall]

/-- C3, witness for the amended theorem at a concrete file. -/
theorem c3_witness : cargar_datos (some [filaEspada, filaMala]) = [] :=
  c3_coercion_fatal_al_load [filaEspada, filaMala] filaMala (by decide) (by decide)

/-- Filter specification that selects everything. -/
def filtroTrivial : FiltroSpec := ⟨"Todas", "Todos", 0, 1000, .todos, ""⟩

/-- Filter specification whose category matches no product of the
sample catalog. -/
def filtroSinResultados : FiltroSpec := ⟨"NoExiste", "Todos", 0, 1000, .todos, ""⟩

/-- C4, counterexample: the claim says that on an empty filtered result
all four presented aggregates (count, sum(stock), sum(price*stock),
mean(price)) equal 0, the mean being defined as 0.  In the source the
empty branch of pagina_productos only prints an informational message:
the three statistics metrics are not computed or presented at all (in
particular no mean equal to 0 is presented), as filtering the empty
catalog shows. -/
theorem c4_counterexample :
    aplicar_filtros [] filtroTrivial = [] ∧
    estadisticas_filtradas (aplicar_filtros [] filtroTrivial) = none ∧
    estadisticas_filtradas (aplicar_filtros [] filtroTrivial) ≠ some ⟨0, 0, 0⟩ := by
  decide

/-- C4, amended: when the filtered result set is empty (in particular
when the catalog itself is empty), the presented count is 0 and the
other three aggregates are not computed or presented at all — the mean
is never evaluated on an empty set, so no division by zero occurs; and
filtering an empty catalog always yields the empty result. -/
theorem c4_vacio_sin_estadisticas (df : List Product) (f : FiltroSpec)
    (h : aplicar_filtros df f = []) :
    (aplicar_filtros df f).length = 0 ∧
    estadisticas_filtradas (aplicar_filtros df f) = none ∧
    ∀ g : FiltroSpec, aplicar_filtros [] g = [] := by
  refine ⟨by simp [h], by simp [h, estadisticas_filtradas], ?_⟩
  intro g
  cases hg : g.stockFilter <;>
    simp [aplicar_filtros, hg]

/-- C4, witness for the amended theorem: a concrete filter matching no
product of the sample catalog. -/
theorem c4_witness :
    (aplicar_filtros dfEjemplo filtroSinResultados).length = 0 ∧
    estadisticas_filtradas (aplicar_filtros dfEjemplo filtroSinResultados) = none ∧
    ∀ g : FiltroSpec, aplicar_filtros [] g = [] :=
  c4_vacio_sin_estadisticas dfEjemplo filtroSinResultados (by decide)

/-- C9: main dispatches a page only when the loaded catalog is
non-empty, so every query, aggregation and mutation — in particular the
max(existing ids) + 1 allocation — only ever runs over a non-empty
catalog; and the two causes of emptiness, a missing file and a file
with zero data rows, both make main abort (they are indistinguishable
at this boundary). -/
theorem c9_paginas_solo_con_catalogo (file : Option (List RawRow))
    (p : Pagina) (df : List Product) (q : Pagina)
    (h : mainApp file p = .dispatched df q) :
    df ≠ [] ∧ df = cargar_datos file ∧ q = p ∧
    (∀ p' : Pagina, mainApp none p' = .aborted) ∧
    (∀ p' : Pagina, mainApp (some []) p' = .aborted) := by
  simp only [mainApp] at h
  by_cases he : (cargar_datos file).isEmpty
  · rw [if_pos he] at h
    cases h
  · rw [if_neg he] at h
    cases h
    exact ⟨by simpa using he, rfl, rfl, fun _ => rfl, fun _ => rfl⟩

/-- C9, witness: a concrete one-row file dispatches with the loaded
one-product catalog. -/
theorem c9_witness :
    ([pEspada] : List Product) ≠ [] ∧
    [pEspada] = cargar_datos (some [filaEspada]) ∧
    Pagina.inicio = Pagina.inicio ∧
    (∀ p' : Pagina, mainApp none p' = .aborted) ∧
    (∀ p' : Pagina, mainApp (some []) p' = .aborted) :=
  c9_paginas_solo_con_catalogo (some [filaEspada]) .inicio [pEspada] .inicio
    (by decide)

/-- Membership fact extracted from a successful product lookup by id:
the row returned by df[df['id'] == producto_id].iloc[0] is a row of the
catalog bearing that id. -/
theorem findProducto_mem {df : List Product} {pid : Int} {p : Product}
    (h : findProducto df pid = some p) : p ∈ df ∧ p.id = pid := by
  unfold findProducto at h
  have hmem : p ∈ df.filter fun q => q.id == pid :=
    List.mem_of_mem_head? (by simp [h])
  rcases List.mem_filter.mp hmem with ⟨hdf, hid⟩
  exact ⟨hdf, by simpa using hid⟩

/-- Stock non-negativity is preserved by the row-wise stock assignment
when the written value is non-negative. -/
theorem asignar_stock_nonneg {df : List Product} {pid ns : Int}
    (hstock : ∀ p ∈ df, 0 ≤ p.stock) (hns : 0 ≤ ns) :
    ∀ q ∈ asignar_stock df pid ns, 0 ≤ q.stock := by
  intro q hq
  unfold asignar_stock at hq
  rcases List.mem_map.mp hq with ⟨p, hp, hpq⟩
  by_cases hid : (p.id == pid) = true
  · rw [if_pos hid] at hpq
    rw [← hpq]
    exact hns
  · rw [if_neg hid] at hpq
    rw [← hpq]
    exact hstock p hp

/-- C2: for a catalog of non-negative stocks, any stock update through
the pagina_gestionar handler (RECEIVE with amount > 0, SELL with
amount > 0, SET with amount >= 0) leaves every stock non-negative; and
a SELL whose amount exceeds the current stock of the selected product
reports the insufficient-stock error, leaves the in-memory catalog
exactly as it was, and never calls guardar_datos (so the on-disk state
is untouched). -/
theorem c2_stock_invariante (df : List Product) (pid : Int) (op : Operacion)
    (cantidad nuevoStockInput : Int)
    (hstock : ∀ p ∈ df, 0 ≤ p.stock)
    (hrec : op = .recibir → 0 < cantidad)
    (hven : op = .vender → 0 < cantidad)
    (hset : op = .establecer → 0 ≤ nuevoStockInput) :
    (∀ p ∈ (actualizar_stock df pid op cantidad nuevoStockInput).df,
        0 ≤ p.stock) ∧
    (∀ producto : Product, op = .vender →
      findProducto df pid = some producto →
      producto.stock < cantidad →
      actualizar_stock df pid op cantidad nuevoStockInput = ⟨df, true, false⟩) := by
  constructor
  · unfold actualizar_stock
    cases hf : findProducto df pid with
    | none => exact hstock
    | some producto =>
      have hpmem := findProducto_mem hf
      have hpnn : 0 ≤ producto.stock := hstock producto hpmem.1
      cases op with
      | recibir =>
        exact asignar_stock_nonneg hstock (by have := hrec rfl; omega)
      | vender =>
        dsimp only
        by_cases hlt : producto.stock < cantidad
        · rw [if_pos hlt]
          exact hstock
        · rw [if_neg hlt]
          exact asignar_stock_nonneg hstock (by omega)
      | establecer =>
        exact asignar_stock_nonneg hstock (hset rfl)
  · intro producto hop hf hlt
    subst hop
    unfold actualizar_stock
    rw [hf]
    simp [hlt]

/-- C2, witness: the scenario of the specification — selling 10 units
of the product with id 1 and stock 5 fails and changes nothing. -/
theorem c2_witness :
    (∀ p ∈ (actualizar_stock dfEjemplo 1 .vender 10 0).df, 0 ≤ p.stock) ∧
    (∀ producto : Product, Operacion.vender = Operacion.vender →
      findProducto dfEjemplo 1 = some producto →
      producto.stock < 10 →
      actualizar_stock dfEjemplo 1 .vender 10 0 = ⟨dfEjemplo, true, false⟩) :=
  c2_stock_invariante dfEjemplo 1 .vender 10 0 (by decide)
    (fun h => nomatch h) (fun _ => by decide) (fun h => nomatch h)

/-- Lookup in the name-to-id dictionary is last-wins: folding the
(name, id) pairs over an arbitrary accumulator returns the id of the
last row bearing the name, the accumulator only surviving when no row
bears it. -/
theorem productos_dict_foldl (df : List Product) (nombre : String)
    (acc : Option Int) :
    df.foldl (fun a p => if p.nombre == nombre then some p.id else a) acc
      = match df.reverse.find? (fun p => p.nombre == nombre) with
        | some q => some q.id
        | none => acc := by
  induction df generalizing acc with
  | nil => rfl
  | cons p rest ih =>
    rw [List.foldl_cons, ih]
    rw [List.reverse_cons, List.find?_append]
    cases hf : rest.reverse.find? (fun q => q.nombre == nombre) with
    | some q => rfl
    | none =>
      cases hp : (p.nombre == nombre) <;> simp [List.find?, hp]

/-- C10: the stock-update selector builds dict(zip(df['nombre'],
df['id'])), whose lookup returns the id of the LAST product in catalog
order bearing the selected name; hence when an earlier product shares
the name with some later product and its id does not occur among the
later rows, that earlier product's id is unreachable through the
selector, so the update always targets the last-occurring product of
that name. -/
theorem c10_dict_ultimo_nombre (df : List Product) (nombre : String) :
    (productos_dict df nombre
      = (df.reverse.find? (fun p => p.nombre == nombre)).map (·.id)) ∧
    (∀ l₁ p l₂, df = l₁ ++ p :: l₂ →
      (∃ q ∈ l₂, q.nombre = nombre) →
      p.id ∉ l₂.map (·.id) →
      productos_dict df nombre ≠ some p.id) := by
  have hbase : productos_dict df nombre
      = (df.reverse.find? (fun p => p.nombre == nombre)).map (·.id) := by
    unfold productos_dict
    rw [productos_dict_foldl]
    cases hf : df.reverse.find? (fun p => p.nombre == nombre) <;> simp
  refine ⟨hbase, ?_⟩
  intro l₁ p l₂ hdf hq hnot hcontra
  subst hdf
  rw [hbase] at hcontra
  obtain ⟨q, hql, hqn⟩ := hq
  have hsome : (l₂.reverse.find? fun x => x.nombre == nombre).isSome := by
    rw [List.find?_isSome]
    exact ⟨q, by simpa using hql, by simpa using hqn⟩
  obtain ⟨q₀, hq₀⟩ := Option.isSome_iff_exists.mp hsome
  have hrw : (l₁ ++ p :: l₂).reverse.find? (fun x => x.nombre == nombre)
      = some q₀ := by
    rw [List.reverse_append, List.reverse_cons, List.append_assoc,
      List.find?_append, hq₀]
    rfl
  rw [hrw] at hcontra
  have hq₀mem : q₀ ∈ l₂ := by
    have := List.mem_of_find?_eq_some hq₀
    simpa using this
  have : q₀.id ∈ l₂.map (·.id) := List.mem_map.mpr ⟨q₀, hq₀mem, rfl⟩
  have hids : q₀.id = p.id := by simpa using hcontra
  rw [hids] at this
  exact hnot this

/-- Product sharing the name Espada with the first sample product but
carrying a different id, placed after it. -/
def pEspadaBis : Product := ⟨3, "Espada", "Armas", 120, 7, "Espada fina", "Forjador"⟩

/-- Catalog in which two products share the name Espada. -/
def dfNombresDuplicados : List Product := [pEspada, pPocion, pEspadaBis]

/-- C10, witness: in the duplicate-name catalog the id of the earlier
Espada (id 1) is unreachable through the selector. -/
theorem c10_witness :
    productos_dict dfNombresDuplicados "Espada" ≠ some pEspada.id :=
  (c10_dict_ultimo_nombre dfNombresDuplicados "Espada").2
    [] pEspada [pPocion, pEspadaBis] (by decide) (by decide) (by decide)

/-- Only the empty catalog has no most-expensive product. -/
theorem mas_caro_eq_none {df : List Product}
    (h : producto_mas_caro df = none) : df = [] := by
  cases df with
  | nil => rfl
  | cons p rest =>
    exfalso
    cases hr : producto_mas_caro rest with
    | none => simp [producto_mas_caro, hr] at h
    | some q =>
      simp only [producto_mas_caro, hr] at h
      by_cases hc : p.precio < q.precio <;> simp [hc] at h

/-- Only the empty catalog has no cheapest product. -/
theorem mas_barato_eq_none {df : List Product}
    (h : producto_mas_barato df = none) : df = [] := by
  cases df with
  | nil => rfl
  | cons p rest =>
    exfalso
    cases hr : producto_mas_barato rest with
    | none => simp [producto_mas_barato, hr] at h
    | some q =>
      simp only [producto_mas_barato, hr] at h
      by_cases hc : q.precio < p.precio <;> simp [hc] at h

/-- The most-expensive reduction returns the first row attaining the
maximal price: the catalog splits around the returned product, every
row's price is at most its price, and every strictly earlier row has a
strictly smaller price. -/
theorem mas_caro_primera_ocurrencia :
    ∀ df : List Product, df ≠ [] →
      ∃ l₁ p l₂, df = l₁ ++ p :: l₂ ∧ producto_mas_caro df = some p ∧
        (∀ q ∈ df, q.precio ≤ p.precio) ∧ (∀ q ∈ l₁, q.precio < p.precio) := by
  intro df
  induction df with
  | nil => intro h; exact absurd rfl h
  | cons a rest ih =>
    intro _
    cases hr : producto_mas_caro rest with
    | none =>
      have hrest : rest = [] := mas_caro_eq_none hr
      subst hrest
      refine ⟨[], a, [], rfl, rfl, ?_, ?_⟩
      · intro q hq
        rw [List.mem_singleton] at hq
        subst hq
        exact le_refl _
      · intro q hq
        cases hq
    | some q =>
      have hrest : rest ≠ [] := by
        intro he
        subst he
        exact Option.noConfusion hr
      obtain ⟨l₁, p, l₂, heq, hp, hmax, hfirst⟩ := ih hrest
      rw [hp] at hr
      injection hr with hpq
      subst hpq
      by_cases hc : a.precio < p.precio
      · refine ⟨a :: l₁, p, l₂, by rw [heq]; rfl, ?_, ?_, ?_⟩
        · simp [producto_mas_caro, hp, hc]
        · intro x hx
          rcases List.mem_cons.mp hx with h | h
          · subst h
            exact le_of_lt hc
          · exact hmax x h
        · intro x hx
          rcases List.mem_cons.mp hx with h | h
          · subst h
            exact hc
          · exact hfirst x h
      · refine ⟨[], a, rest, rfl, ?_, ?_, ?_⟩
        · simp [producto_mas_caro, hp, hc]
        · intro x hx
          rcases List.mem_cons.mp hx with h | h
          · subst h
            exact le_refl _
          · exact le_trans (hmax x h) (not_lt.mp hc)
        · intro x hx
          cases hx

/-- The cheapest reduction returns the first row attaining the minimal
price. -/
theorem mas_barato_primera_ocurrencia :
    ∀ df : List Product, df ≠ [] →
      ∃ l₁ p l₂, df = l₁ ++ p :: l₂ ∧ producto_mas_barato df = some p ∧
        (∀ q ∈ df, p.precio ≤ q.precio) ∧ (∀ q ∈ l₁, p.precio < q.precio) := by
  intro df
  induction df with
  | nil => intro h; exact absurd rfl h
  | cons a rest ih =>
    intro _
    cases hr : producto_mas_barato rest with
    | none =>
      have hrest : rest = [] := mas_barato_eq_none hr
      subst hrest
      refine ⟨[], a, [], rfl, rfl, ?_, ?_⟩
      · intro q hq
        rw [List.mem_singleton] at hq
        subst hq
        exact le_refl _
      · intro q hq
        cases hq
    | some q =>
      have hrest : rest ≠ [] := by
        intro he
        subst he
        exact Option.noConfusion hr
      obtain ⟨l₁, p, l₂, heq, hp, hmin, hfirst⟩ := ih hrest
      rw [hp] at hr
      injection hr with hpq
      subst hpq
      by_cases hc : p.precio < a.precio
      · refine ⟨a :: l₁, p, l₂, by rw [heq]; rfl, ?_, ?_, ?_⟩
        · simp [producto_mas_barato, hp, hc]
        · intro x hx
          rcases List.mem_cons.mp hx with h | h
          · subst h
            exact le_of_lt hc
          · exact hmin x h
        · intro x hx
          rcases List.mem_cons.mp hx with h | h
          · subst h
            exact hc
          · exact hfirst x h
      · refine ⟨[], a, rest, rfl, ?_, ?_, ?_⟩
        · simp [producto_mas_barato, hp, hc]
        · intro x hx
          rcases List.mem_cons.mp hx with h | h
          · subst h
            exact le_refl _
          · exact le_trans (not_lt.mp hc) (hmin x h)
        · intro x hx
          cases hx

/-- C8: on a non-empty catalog the most-expensive and cheapest
reductions each return a single product; the returned product attains
the extremal price, and every product strictly before it in catalog
order has a strictly worse price — i.e. ties are broken by first
occurrence in catalog (row) order. -/
theorem c8_extremos (df : List Product) (h : df ≠ []) :
    (∃ l₁ p l₂, df = l₁ ++ p :: l₂ ∧ producto_mas_caro df = some p ∧
      (∀ q ∈ df, q.precio ≤ p.precio) ∧ (∀ q ∈ l₁, q.precio < p.precio)) ∧
    (∃ l₁ p l₂, df = l₁ ++ p :: l₂ ∧ producto_mas_barato df = some p ∧
      (∀ q ∈ df, p.precio ≤ q.precio) ∧ (∀ q ∈ l₁, p.precio < q.precio)) :=
  ⟨mas_caro_primera_ocurrencia df h, mas_barato_primera_ocurrencia df h⟩

/-- Pointwise sum split over a mapped list of integers. -/
theorem sum_map_add_int {α : Type} (l : List α) (f g : α → Int) :
    (l.map fun x => f x + g x).sum = (l.map f).sum + (l.map g).sum := by
  induction l with
  | nil => simp
  | cons a t ih =>
    simp only [List.map_cons, List.sum_cons, ih]
    ring

/-- Summing an indicator over a duplicate-free key list that contains
the key picks out the single contribution. -/
theorem sum_ite_unico (keys : List String) (c : String) (s : Int)
    (hnd : keys.Nodup) (hc : c ∈ keys) :
    (keys.map fun k => if c == k then s else 0).sum = s := by
  induction keys with
  | nil => cases hc
  | cons k ks ih =>
    rw [List.map_cons, List.sum_cons]
    have hnd' := List.nodup_cons.mp hnd
    rcases List.mem_cons.mp hc with h | h
    · subst h
      rw [if_pos (by simp)]
      have hzero : (ks.map fun k' => if c == k' then s else 0).sum = 0 := by
        apply List.sum_eq_zero
        intro x hx
        rcases List.mem_map.mp hx with ⟨k', hk', hval⟩
        rw [← hval, if_neg]
        intro hbeq
        exact hnd'.1 (beq_iff_eq.mp hbeq ▸ hk')
      rw [hzero]
      ring
    · have hck : ¬(c == k) = true := by
        intro hbeq
        rw [beq_iff_eq.mp hbeq] at h
        exact hnd'.1 h
      rw [if_neg hck, ih hnd'.2 h]
      ring

/-- Grouping partitions the catalog: summing the per-group stock totals
over any duplicate-free key list covering all categories gives the
catalog's total stock. -/
theorem sum_stock_partition (keys : List String) :
    ∀ l : List Product, keys.Nodup → (∀ p ∈ l, p.categoria ∈ keys) →
      (keys.map fun c => sumStock (l.filter fun p => p.categoria == c)).sum
        = sumStock l := by
  intro l
  induction l with
  | nil =>
    intro _ _
    simp [sumStock]
  | cons p rest ih =>
    intro hnd hcov
    have hcovr : ∀ q ∈ rest, q.categoria ∈ keys :=
      fun q hq => hcov q (List.mem_cons_of_mem _ hq)
    have hsplit : (keys.map fun c =>
          sumStock ((p :: rest).filter fun q => q.categoria == c)).sum
        = (keys.map fun c => (if p.categoria == c then p.stock else 0)
            + sumStock (rest.filter fun q => q.categoria == c)).sum := by
      congr 1
      apply List.map_congr_left
      intro c _
      by_cases hc : (p.categoria == c) = true <;>
        simp [sumStock, List.filter_cons, hc]
    rw [hsplit, sum_map_add_int,
      sum_ite_unico keys p.categoria p.stock hnd (hcov p (List.mem_cons_self p rest)),
      ih hnd hcovr]
    simp [sumStock]

/-- C6: the per-category stock totals of the analysis table sum to the
total stock of the catalog — grouping loses no product and counts none
twice. -/
theorem c6_agrupacion_conserva_stock (df : List Product) :
    ((analisis_categoria df).map (·.stockTotal)).sum = sumStock df := by
  unfold analisis_categoria
  rw [List.map_map]
  have heq : ((categoriasUnicas df).map
        ((fun fila : FilaCategoria => fila.stockTotal) ∘ fun c =>
          let g := df.filter fun p => p.categoria == c
          ⟨c, g.length, sumStock g, (sumPrecio g : Rat) / (g.length : Rat),
            sumValor g⟩)).sum
      = ((categoriasUnicas df).map fun c =>
          sumStock (df.filter fun p => p.categoria == c)).sum := by
    congr 1
  rw [heq]
  exact sum_stock_partition (categoriasUnicas df) df
    (List.nodup_dedup _)
    (fun p hp => List.mem_dedup.mpr (List.mem_map_of_mem _ hp))

/-- Parsing a canonical decimal cell succeeds and printing the value
back reproduces the cell. -/
theorem canonical_parse {s : String} (h : canonicalInt s = true) :
    ∃ i : Int, parseInt s = some i ∧ intToString i = s := by
  unfold canonicalInt at h
  cases hp : parseInt s with
  | none =>
    rw [hp] at h
    cases h
  | some i =>
    rw [hp] at h
    exact ⟨i, rfl, beq_iff_eq.mp h⟩

/-- A row whose numeric cells are canonical coerces successfully, and
serializing the coerced product reproduces the row. -/
theorem serialize_coerce {r : RawRow}
    (h : (canonicalInt r.id && canonicalInt r.precio && canonicalInt r.stock)
      = true) :
    ∃ p, coerceRow r = some p ∧ serializeRow p = r := by
  rcases r with ⟨sid, snom, scat, spre, ssto, sdes, spro⟩
  simp only [Bool.and_eq_true] at h
  obtain ⟨⟨h1, h2⟩, h3⟩ := h
  obtain ⟨i, hi, hi'⟩ := canonical_parse h1
  obtain ⟨pr, hpr, hpr'⟩ := canonical_parse h2
  obtain ⟨st, hst, hst'⟩ := canonical_parse h3
  refine ⟨⟨i, snom, scat, pr, st, sdes, spro⟩, ?_, ?_⟩
  · unfold coerceRow
    rw [hi, hpr, hst]
  · unfold serializeRow
    rw [hi', hpr', hst']

/-- Coercion of a well-formed file succeeds row by row and serializes
back to the original file. -/
theorem coerceAll_wf : ∀ rows : List RawRow, wellFormedFile rows = true →
    ∃ ps, coerceAll rows = some ps ∧ guardar_serialize ps = rows := by
  intro rows
  induction rows with
  | nil =>
    intro _
    exact ⟨[], rfl, rfl⟩
  | cons r rest ih =>
    intro h
    rw [wellFormedFile, List.all_cons, Bool.and_eq_true] at h
    obtain ⟨hr, hrest⟩ := h
    obtain ⟨p, hp, hps⟩ := serialize_coerce hr
    obtain ⟨ps, hall, hser⟩ := ih hrest
    refine ⟨p :: ps, ?_, ?_⟩
    · unfold coerceAll
      rw [hp, hall]
    · show serializeRow p :: guardar_serialize ps = r :: rest
      rw [hps, hser]

/-- C7: saving the catalog loaded from a well-formed backing file
(zero or more rows, numeric cells canonical decimal integers)
reproduces the file exactly — same column order, same row order, same
values. -/
theorem c7_roundtrip (rows : List RawRow) (h : wellFormedFile rows = true) :
    guardar_serialize (cargar_datos (some rows)) = rows := by
  obtain ⟨ps, hall, hser⟩ := coerceAll_wf rows h
  simp only [cargar_datos]
  rw [hall]
  exact hser

/-- C7, witness at a concrete two-row file. -/
theorem c7_witness :
    guardar_serialize (cargar_datos (some [filaEspada, filaPocion]))
      = [filaEspada, filaPocion] :=
  c7_roundtrip [filaEspada, filaPocion] (by decide)

/-- Every id of the catalog is bounded by the column maximum. -/
theorem maxId_cota : ∀ df : List Product, ∀ p ∈ df, p.id ≤ maxId df := by
  intro df
  induction df with
  | nil =>
    intro p hp
    cases hp
  | cons a t ih =>
    intro p hp
    cases t with
    | nil =>
      rw [List.mem_singleton] at hp
      subst hp
      exact le_refl _
    | cons b u =>
      rcases List.mem_cons.mp hp with h | h
      · subst h
        exact le_max_left _ _
      · exact le_trans (ih p h) (le_max_right _ _)

/-- Appending one product extends the id maximum multiplicatively by a
binary max. -/
theorem maxId_append : ∀ (df : List Product) (x : Product), df ≠ [] →
    maxId (df ++ [x]) = max (maxId df) x.id := by
  intro df
  induction df with
  | nil =>
    intro x h
    exact absurd rfl h
  | cons a t ih =>
    intro x _
    cases t with
    | nil => simp [maxId]
    | cons b u =>
      have hrec := ih x (by simp)
      show maxId (a :: (b :: u ++ [x])) = max (maxId (a :: b :: u)) x.id
      rw [show maxId (a :: (b :: u ++ [x]))
            = max a.id (maxId (b :: u ++ [x])) from rfl]
      rw [show (b :: u ++ [x] : List Product) = (b :: u) ++ [x] from rfl, hrec]
      rw [show maxId (a :: b :: u) = max a.id (maxId (b :: u)) from rfl]
      exact (max_assoc _ _ _).symm

/-- Consecutive successful additions assign the ids max+1, max+2, ...
in insertion order and keep the id column duplicate-free. -/
theorem agregar_varios_ids : ∀ (fs : List FormProducto) (df : List Product),
    df ≠ [] →
    (∀ f ∈ fs, f.nombre ≠ "" ∧ f.descripcion ≠ "") →
    (df.map (·.id)).Nodup →
    (agregar_varios df fs).map (·.id)
        = df.map (·.id)
          ++ (List.range fs.length).map (fun k : Nat => maxId df + 1 + (k : Int)) ∧
    ((agregar_varios df fs).map (·.id)).Nodup := by
  intro fs
  induction fs with
  | nil =>
    intro df hne hv hnd
    exact ⟨by simp [agregar_varios], hnd⟩
  | cons f fs ih =>
    intro df hne hv hnd
    have hf := hv f (List.mem_cons_self f fs)
    have hcond : (f.nombre == "" || f.descripcion == "") = false := by
      simp only [Bool.or_eq_false_iff, beq_eq_false_iff_ne]
      exact hf
    have hstep : (agregar_producto df f).1
        = df ++ [⟨maxId df + 1, f.nombre, f.categoria, f.precio, f.stock,
                  f.descripcion, f.proveedor⟩] := by
      unfold agregar_producto
      rw [hcond]
      rfl
    have hnotmem : (maxId df + 1) ∉ df.map (·.id) := by
      intro hmem
      rcases List.mem_map.mp hmem with ⟨p, hp, hpid⟩
      have := maxId_cota df p hp
      omega
    set nuevo : Product := ⟨maxId df + 1, f.nombre, f.categoria, f.precio,
      f.stock, f.descripcion, f.proveedor⟩ with hnuevo
    have hvar : agregar_varios df (f :: fs) = agregar_varios (df ++ [nuevo]) fs := by
      show agregar_varios (agregar_producto df f).1 fs = _
      rw [hstep]
    have hne' : df ++ [nuevo] ≠ [] := by simp
    have hv' : ∀ g ∈ fs, g.nombre ≠ "" ∧ g.descripcion ≠ "" :=
      fun g hg => hv g (List.mem_cons_of_mem _ hg)
    have hnd' : ((df ++ [nuevo]).map (·.id)).Nodup := by
      rw [List.map_append, List.nodup_append]
      refine ⟨hnd, List.nodup_singleton _, ?_⟩
      intro x hx hx'
      rw [List.map_singleton, List.mem_singleton] at hx'
      subst hx'
      exact hnotmem hx
    have hmax' : maxId (df ++ [nuevo]) = maxId df + 1 := by
      rw [maxId_append df nuevo hne]
      have hidn : nuevo.id = maxId df + 1 := rfl
      rw [hidn]
      exact max_eq_right (by omega)
    obtain ⟨hids, hnodup⟩ := ih (df ++ [nuevo]) hne' hv' hnd'
    constructor
    · rw [hvar, hids, hmax', List.map_append, List.map_singleton,
        List.append_assoc, List.singleton_append]
      show df.map (·.id) ++ (nuevo.id :: (List.range fs.length).map
            (fun k : Nat => maxId df + 1 + 1 + (k : Int)))
          = df.map (·.id) ++ (List.range (fs.length + 1)).map
            (fun k : Nat => maxId df + 1 + (k : Int))
      congr 1
      rw [List.range_succ_eq_map, List.map_cons, List.map_map]
      congr 1
      · show nuevo.id = maxId df + 1 + ((0 : Nat) : Int)
        rw [hnuevo]
        push_cast
        ring
      · apply List.map_congr_left
        intro k _
        show maxId df + 1 + 1 + (k : Int) = maxId df + 1 + ((k + 1 : Nat) : Int)
        push_cast
        ring
    · rw [hvar]
      exact hnodup

/-- C5: on an initially valid non-empty catalog with duplicate-free
ids, N consecutive successful additions produce a catalog of
original_count + N products whose id column is still duplicate-free,
the N new ids being exactly max+1, ..., max+N in insertion order. -/
theorem c5_ids_consecutivos (df : List Product) (fs : List FormProducto)
    (hne : df ≠ [])
    (hvalid : ∀ f ∈ fs, f.nombre ≠ "" ∧ f.descripcion ≠ "")
    (hnodup : (df.map (·.id)).Nodup) :
    (agregar_varios df fs).map (·.id)
        = df.map (·.id)
          ++ (List.range fs.length).map (fun k : Nat => maxId df + 1 + (k : Int)) ∧
    ((agregar_varios df fs).map (·.id)).Nodup ∧
    (agregar_varios df fs).length = df.length + fs.length := by
  obtain ⟨h1, h2⟩ := agregar_varios_ids fs df hne hvalid hnodup
  refine ⟨h1, h2, ?_⟩
  have hlen := congrArg List.length h1
  simpa using hlen

/-- Valid form input for the witness additions. -/
def formHacha : FormProducto := ⟨"Hacha", "Armas", 80, 12, "Hacha de guerra", "Herrero"⟩

/-- Second valid form input for the witness additions. -/
def formEscudo : FormProducto := ⟨"Escudo", "Armas", 60, 9, "Escudo solido", "Herrero"⟩

/-- C5, witness: two successive additions on the sample catalog get ids
3 and 4. -/
theorem c5_witness :
    (agregar_varios dfEjemplo [formHacha, formEscudo]).map (·.id)
        = dfEjemplo.map (·.id)
          ++ (List.range ([formHacha, formEscudo] : List FormProducto).length).map
            (fun k : Nat => maxId dfEjemplo + 1 + (k : Int)) ∧
    ((agregar_varios dfEjemplo [formHacha, formEscudo]).map (·.id)).Nodup ∧
    (agregar_varios dfEjemplo [formHacha, formEscudo]).length
        = dfEjemplo.length + ([formHacha, formEscudo] : List FormProducto).length :=
  c5_ids_consecutivos dfEjemplo [formHacha, formEscudo] (by decide) (by decide)
    (by decide)

/-- C8, witness at the two-product sample catalog. -/
theorem c8_witness :
    (∃ l₁ p l₂, dfEjemplo = l₁ ++ p :: l₂ ∧
      producto_mas_caro dfEjemplo = some p ∧
      (∀ q ∈ dfEjemplo, q.precio ≤ p.precio) ∧
      (∀ q ∈ l₁, q.precio < p.precio)) ∧
    (∃ l₁ p l₂, dfEjemplo = l₁ ++ p :: l₂ ∧
      producto_mas_barato dfEjemplo = some p ∧
      (∀ q ∈ dfEjemplo, p.precio ≤ q.precio) ∧
      (∀ q ∈ l₁, p.precio < q.precio)) :=
  c8_extremos dfEjemplo (by decide)
